import Mathlib

/-!
Verification of the insults-agent orchestration layer of the repository
(`deeppavlov/agents/insults/insults_agents.py` and
`deeppavlov/agents/insults/model.py`).

The embedding models the observable orchestration: observations, examples,
replies, the ensemble's weighted combination, the agents' `observe` /
`batch_act` control flow, and the adapter constructor's initialization
decision.  The external ML library calls (`model.predict`, `model.update`)
are abstracted as function parameters; everything else is translated
directly from the Python source.  Python exceptions (`IndexError`,
`KeyError`, `ZeroDivisionError`, `RuntimeError`, `IOError`) are modelled
with `Except String`.  Floating-point scores are modelled with `ℚ`.
-/

namespace DP

/-- An observation record (a ParlAI message): optional `text` field,
optional `labels` field, and the `episode_done` flag.  `Option` models
presence/absence of the dictionary key. -/
structure Obs where
  text : Option String
  labels : Option (List String)
  episodeDone : Bool
deriving DecidableEq, Repr

/-- An example produced by `_build_ex`: a `question` entry (the text) and an
optional `labels` entry.  In the source this is a Python dict with one or
two keys; `len(ex) == 2` corresponds to `labels.isSome`. -/
structure Example where
  question : String
  labels : Option (List String)
deriving DecidableEq, Repr

/-- A reply dict: always carries the agent `id`; `text` (the textual label)
and `score` are present only when a prediction was produced. -/
structure Reply where
  id : String
  text : Option String
  score : Option ℚ
deriving DecidableEq, Repr

/-- `_build_ex(self, ex)` (identical in `InsultsModel`, `InsultsAgent` and
`EnsembleInsultsAgent`): returns `None` when the observation has no
`text` key, otherwise a dict with `question` and, when present, `labels`. -/
def build_ex (ex : Obs) : Option Example :=
  match ex.text with
  | none => none
  | some t => some ⟨t, ex.labels⟩

/-- `_predictions2text`: `['Insult' if ex > 0.5 else 'Non-insult' for ex in
predictions]`. -/
def predictions2text (predictions : List ℚ) : List String :=
  predictions.map (fun ex => if ex > 1/2 then "Insult" else "Non-insult")

/-- `_text2predictions`: `[1 if ex == 'Insult' else 0 for ex in predictions]`. -/
def text2predictions (predictions : List String) : List Nat :=
  predictions.map (fun ex => if ex = "Insult" then 1 else 0)

/-- `EnsembleInsultsAgent.weighted_sum(self, predictions)`:
`result = 0; for j in range(len(predictions)): result +=
self.model_coefs[j] * predictions[j]; result /= sum(self.model_coefs)`.
Out-of-range indexing (a Python `IndexError`) and division by zero are
guarded by the callers/theorems; here `getD _ 0` and `ℚ`'s `x / 0 = 0`
totalize them. -/
def weighted_sum (model_coefs : List ℚ) (predictions : List ℚ) : ℚ :=
  ((List.range predictions.length).foldl
    (fun result j => result + model_coefs.getD j 0 * predictions.getD j 0) 0)
    / model_coefs.sum

/-- The spec's formula for the combined ensemble score: Σ(wᵢ·sᵢ) / Σ(wᵢ)
over the configured coefficients.  Stated from the spec's words, to be
compared with `weighted_sum` translated from the source. -/
def specWeightedAvg (weights scores : List ℚ) : ℚ :=
  (List.zipWith (fun w s => w * s) weights scores).sum / weights.sum

/-! ### Helper lemmas about the indexed fold in `weighted_sum` -/

theorem foldl_add_eq_sum_map (g : Nat → ℚ) :
    ∀ (l : List Nat) (init : ℚ),
      l.foldl (fun r j => r + g j) init = init + (l.map g).sum
  | [], init => by simp
  | j :: l, init => by
    simp [List.foldl_cons, foldl_add_eq_sum_map g l (init + g j), add_assoc]

theorem range_map_getD_mul :
    ∀ (predictions model_coefs : List ℚ),
      predictions.length ≤ model_coefs.length →
      ((List.range predictions.length).map
        (fun j => model_coefs.getD j 0 * predictions.getD j 0)).sum
        = (List.zipWith (fun w s => w * s) model_coefs predictions).sum
  | [], _, _ => by simp
  | p :: ps, [], h => by simp at h
  | p :: ps, c :: cs, h => by
    have ih := range_map_getD_mul ps cs (by simpa using h)
    simp only [List.length_cons, List.range_succ_eq_map, List.map_cons,
      List.map_map, List.zipWith_cons_cons, List.sum_cons]
    have : ((List.range ps.length).map
        ((fun j => (c :: cs).getD j 0 * (p :: ps).getD j 0) ∘ Nat.succ)).sum
        = ((List.range ps.length).map (fun j => cs.getD j 0 * ps.getD j 0)).sum := by
      apply congrArg
      apply List.map_congr_left
      intro j _
      rfl
    rw [this, ih]
    rfl

/-- When every configured adapter contributes (`predictions` is as long as
`model_coefs`), `weighted_sum` computes exactly Σ(wᵢ·sᵢ)/Σ(wᵢ). -/
theorem weighted_sum_eq_specWeightedAvg (model_coefs predictions : List ℚ)
    (h : predictions.length = model_coefs.length) :
    weighted_sum model_coefs predictions = specWeightedAvg model_coefs predictions := by
  unfold weighted_sum specWeightedAvg
  rw [foldl_add_eq_sum_map, zero_add, range_map_getD_mul predictions model_coefs h.le]

/-! ### `_batchify` (the `model_type == 'ngrams'` branch of
`InsultsModel._batchify`; the `'nn'` branch has the same observable control
flow — same `batch[0]` indexing, same label comprehension — and differs
only in turning the question list into an embedding tensor, which the
abstract `predict` parameter consumes) -/

/-- The batch handed to the model: the question list, with the label vector
when `len(batch[0]) == 2`. -/
inductive BatchifyOut where
  | unlabeled (questions : List String)
  | labeled (questions : List String) (y : List Nat)
deriving DecidableEq, Repr

def BatchifyOut.questions : BatchifyOut → List String
  | .unlabeled q => q
  | .labeled q _ => q

/-- `y = [1 if ex['labels'][0] == 'Insult' else 0 for ex in batch]`:
`KeyError` when an example lacks `labels`, `IndexError` when its label list
is empty. -/
def labelVec : List Example → Except String (List Nat)
  | [] => .ok []
  | ex :: rest =>
    match ex.labels with
    | none => .error "KeyError"
    | some [] => .error "IndexError"
    | some (l :: _) =>
      (labelVec rest).map (fun y => (if l = "Insult" then 1 else 0) :: y)

/-- `InsultsModel._batchify(batch)`: collects the `question` fields; on an
empty batch `batch[0]` raises `IndexError`; when the first example carries
labels (`len(batch[0]) == 2`) the label vector is built and returned with
the questions. -/
def batchify (batch : List Example) : Except String BatchifyOut :=
  let question := batch.map Example.question
  match batch with
  | [] => .error "IndexError"
  | ex0 :: _ =>
    match ex0.labels with
    | some _ => (labelVec batch).map (fun y => .labeled question y)
    | none => .ok (.unlabeled question)

/-! ### Ensemble coordinator (`EnsembleInsultsAgent.batch_act`) -/

/-- `[i for i in range(batch_size) if examples[i] is not None]`. -/
def validInds (examples : List (Option Example)) : List Nat :=
  (List.range examples.length).filter (fun i => (examples.getD i none).isSome)

/-- `for i in range(len(prediction)): predictions[valid_inds[i]].append(prediction[i])`.
The caller guards `len(prediction) ≤ len(valid_inds)`; a longer prediction
list raises `IndexError` there. -/
def scatterPred : List (List ℚ) → List Nat → List ℚ → List (List ℚ)
  | table, _, [] => table
  | table, [], _ :: _ => table
  | table, i :: is, v :: vs =>
    scatterPred (table.set i (table.getD i [] ++ [v])) is vs

/-- One iteration of `for j, model in enumerate(self.models)` in
`EnsembleInsultsAgent.batch_act`: build the examples, the valid indices,
batchify, predict (the abstract model), and scatter the predictions back
to the original positions. -/
def ensembleStep (observations : List Obs) (table : List (List ℚ))
    (model : BatchifyOut → List ℚ) : Except String (List (List ℚ)) := do
  let examples := observations.map build_ex
  let valid_inds := validInds examples
  let exs := examples.filterMap id
  let out ← batchify exs
  let prediction := model out
  if prediction.length ≤ valid_inds.length then
    .ok (scatterPred table valid_inds prediction)
  else
    .error "IndexError"

/-- The model loop of `EnsembleInsultsAgent.batch_act`. -/
def runModels (observations : List Obs) :
    List (BatchifyOut → List ℚ) → List (List ℚ) → Except String (List (List ℚ))
  | [], table => .ok table
  | m :: ms, table => do
    let table' ← ensembleStep observations table m
    runModels observations ms table'

/-- The final loop of `EnsembleInsultsAgent.batch_act`: positions with at
least one contributing score get `text = _predictions2text([p])[0]` and
`score = p` where `p = weighted_sum(predictions[i])`; other positions keep
only the id.  Out-of-range coefficient indexing raises `IndexError` and a
zero coefficient sum raises `ZeroDivisionError`, as in Python. -/
def combine (model_coefs : List ℚ) (agentId : String) (preds : List ℚ) :
    Except String Reply :=
  if preds.length = 0 then .ok ⟨agentId, none, none⟩
  else if model_coefs.length < preds.length then .error "IndexError"
  else if model_coefs.sum = 0 then .error "ZeroDivisionError"
  else
    let p := weighted_sum model_coefs preds
    .ok ⟨agentId, some ((predictions2text [p]).getD 0 ""), some p⟩

def combineAll (model_coefs : List ℚ) (agentId : String) :
    List (List ℚ) → Except String (List Reply)
  | [] => .ok []
  | preds :: rest => do
    let r ← combine model_coefs agentId preds
    let rs ← combineAll model_coefs agentId rest
    .ok (r :: rs)

/-- `EnsembleInsultsAgent.batch_act(observations)` (the adapters' `predict`
functions are the abstract `models` parameter; `isShared` is the
`self.is_shared` flag checked at entry). -/
def ensemble_batch_act (isShared : Bool) (models : List (BatchifyOut → List ℚ))
    (model_coefs : List ℚ) (agentId : String) (observations : List Obs) :
    Except String (List Reply) :=
  if isShared then .error "RuntimeError: Parallel act is not supported."
  else do
    let table ← runModels observations models (observations.map (fun _ => []))
    combineAll model_coefs agentId table

/-- `EnsembleInsultsAgent.act()`: `self.batch_act([self.observation])[0]`. -/
def ensemble_act (isShared : Bool) (models : List (BatchifyOut → List ℚ))
    (model_coefs : List ℚ) (agentId : String) (observation : Obs) :
    Except String Reply := do
  let replies ← ensemble_batch_act isShared models model_coefs agentId [observation]
  match replies with
  | [] => .error "IndexError"
  | r :: _ => .ok r

/-! ### `InsultsAgent.batch_act` and `OneEpochAgent.batch_act` -/

/-- `for i in range(len(predictions)): batch_reply[valid_inds[i]]['text'] =
predictions_text[i]; batch_reply[valid_inds[i]]['score'] = predictions[i]`.
Setting the two keys keeps the already-present `id` of the reply dict. -/
def scatterReply : List Reply → List Nat → List (String × ℚ) → List Reply
  | table, _, [] => table
  | table, [], _ :: _ => table
  | table, i :: is, (t, v) :: vs =>
    scatterReply
      (table.set i
        { table.getD i ⟨"", none, none⟩ with text := some t, score := some v })
      is vs

/-- `InsultsAgent.batch_act(observations)`.  The adapter's `predict` and
`update` are the abstract parameters `predictF` and `updateF` (`update`'s
training side effect on model parameters is outside the scope of the
claims; only the returned score list is modelled, as is `predict`'s).
`observations[0]` raises `IndexError` on an empty batch; the
`'labels' in observations[0]` test selects `update` over `predict`. -/
def insults_batch_act (isShared : Bool) (predictF updateF : BatchifyOut → List ℚ)
    (agentId : String) (observations : List Obs) : Except String (List Reply) :=
  if isShared then .error "RuntimeError: Parallel act is not supported."
  else
    let batch_reply : List Reply := observations.map (fun _ => ⟨agentId, none, none⟩)
    let examples := observations.map build_ex
    let valid_inds := validInds examples
    let exs := examples.filterMap id
    match observations with
    | [] => .error "IndexError"
    | obs0 :: _ => do
      let out ← batchify exs
      let predictions := if obs0.labels.isSome then updateF out else predictF out
      let predictions_text := predictions2text predictions
      if predictions.length ≤ valid_inds.length then
        .ok (scatterReply batch_reply valid_inds (predictions_text.zip predictions))
      else
        .error "IndexError"

/-- `OneEpochAgent.batch_act(observations)`: first
`self.observations_ += observations`, then the `is_shared` check, then the
usual reply construction (the labels branch only counts examples; the
predict branch fills the replies).  Returns the new `observations_` list
together with the call's outcome. -/
def one_epoch_batch_act (isShared : Bool) (stored : List Obs)
    (predictF : BatchifyOut → List ℚ) (agentId : String)
    (observations : List Obs) : List Obs × Except String (List Reply) :=
  let stored' := stored ++ observations
  if isShared then (stored', .error "RuntimeError: Parallel act is not supported.")
  else
    let batch_reply : List Reply := observations.map (fun _ => ⟨agentId, none, none⟩)
    let examples := observations.map build_ex
    let valid_inds := validInds examples
    let exs := examples.filterMap id
    match observations with
    | [] => (stored', .error "IndexError")
    | obs0 :: _ =>
      if obs0.labels.isSome then (stored', .ok batch_reply)
      else
        match batchify exs with
        | .error e => (stored', .error e)
        | .ok out =>
          let predictions := predictF out
          let predictions_text := predictions2text predictions
          if predictions.length ≤ valid_inds.length then
            (stored', .ok (scatterReply batch_reply valid_inds
              (predictions_text.zip predictions)))
          else
            (stored', .error "IndexError")

/-! ### The conversational shell's `observe` (identical in
`EnsembleInsultsAgent`, `BoostEnsembleInsultsAgent` and `InsultsAgent`) -/

/-- Shell state: `self.episode_done` and `self.observation` (the ParlAI
`Agent` base class initializes `self.observation` to `None`). -/
structure ShellState where
  episode_done : Bool
  observation : Option Obs
deriving DecidableEq, Repr

/-- A freshly constructed agent: `self.episode_done = True`, no stored
observation. -/
def initialShell : ShellState := ⟨true, none⟩

/-- `observe(self, observation)`: when the previous example did not end its
episode, `observation['text'] = self.observation['text'] + '\n' +
observation['text']`; then the observation is stored and
`self.episode_done` is refreshed from it.  Accessing the text of a missing
stored observation or of an observation without `text` raises. -/
def observe (st : ShellState) (observation : Obs) :
    Except String (ShellState × Obs) := do
  let observation ←
    if !st.episode_done then do
      let prev_dialogue ←
        match st.observation with
        | none => Except.error "AttributeError"
        | some prevObs =>
          match prevObs.text with
          | none => Except.error "KeyError"
          | some t => Except.ok t
      let cur ←
        match observation.text with
        | none => Except.error "KeyError"
        | some t => Except.ok t
      Except.ok { observation with text := some (prev_dialogue ++ "\n" ++ cur) }
    else
      Except.ok observation
  .ok (⟨observation.episodeDone, some observation⟩, observation)

/-- A sequence of `observe` calls, threading the shell state. -/
def observeAll (st : ShellState) : List Obs → Except String ShellState
  | [] => .ok st
  | o :: rest => do
    let (st', _) ← observe st o
    observeAll st' rest

/-- The spec's newline-join of a list of texts. -/
def newlineJoin : List String → String
  | [] => ""
  | [t] => t
  | t :: ts => t ++ "\n" ++ newlineJoin ts

/-! ### `InsultsModel.__init__`: the initialization decision.
The filesystem is a predicate `isfile`; the constructed Keras/sklearn model
object is represented by where it came from (`scratch`/`loaded`), which is
what the claims about construction observe. -/

/-- The model object finally assigned to `self.model`, by provenance. -/
inductive ModelRepr where
  | scratch (model_name : String)
  | loaded (fname : String)
deriving DecidableEq, Repr

/-- The observable outcome of `InsultsModel.__init__`: `self.model_type`
(`None` for an unrecognized name), `self.from_saved`, and `self.model`
(`none` when no branch ever assigned it). -/
structure AdapterState where
  modelType : Option String
  fromSaved : Bool
  model : Option ModelRepr
deriving DecidableEq, Repr

/-- `self.model_type` as assigned by the name tests in `__init__`. -/
def modelTypeOf (model_name : String) : Option String :=
  if model_name = "cnn_word" ∨ model_name = "lstm_word" then some "nn"
  else if model_name = "log_reg" ∨ model_name = "svc" then some "ngrams"
  else none

/-- The nine artifacts required by the `__init__` check for the classical
(`ngrams`) family. -/
def ngramsFiles (f : String) : List String :=
  [f ++ "_opt.json", f ++ "_cls.pkl", f ++ "_ngrams_vect_special.bin",
   f ++ "_ngrams_vect_general_0.bin", f ++ "_ngrams_vect_general_1.bin",
   f ++ "_ngrams_vect_general_2.bin", f ++ "_ngrams_vect_general_3.bin",
   f ++ "_ngrams_vect_general_4.bin", f ++ "_ngrams_vect_general_5.bin"]

def ngramsFilesPresent (isfile : String → Bool) (f : String) : Bool :=
  (ngramsFiles f).all isfile

/-- `_init_from_scratch`: which model constructor runs; for a name outside
the four recognized ones, none of the `if`s fire and `self.model` is never
assigned. -/
def initFromScratchModel (model_name : String) : Option ModelRepr :=
  if model_name = "log_reg" then some (.scratch "log_reg")
  else if model_name = "svc" then some (.scratch "svc")
  else if model_name = "cnn_word" then some (.scratch "cnn_word")
  else if model_name = "lstm_word" then some (.scratch "lstm_word")
  else none

/-- `_init_from_saved(fname)`: opens `fname + '_opt.json'` (fatal if
missing), then for the `nn` family loads `fname + '.h5'` weights and for
the `ngrams` family unpickles `fname + '_cls.pkl'` (each fatal if missing);
with `model_type` still `None` neither branch runs and no model is
assigned. -/
def initFromSaved (isfile : String → Bool) (modelType : Option String)
    (fname : String) : Except String AdapterState :=
  if !isfile (fname ++ "_opt.json") then .error "IOError"
  else if modelType == some "nn" then
    if isfile (fname ++ ".h5") then .ok ⟨modelType, true, some (.loaded fname)⟩
    else .error "IOError"
  else if modelType == some "ngrams" then
    if isfile (fname ++ "_cls.pkl") then .ok ⟨modelType, true, some (.loaded fname)⟩
    else .error "IOError"
  else .ok ⟨modelType, true, none⟩

/-- The initialization decision of `InsultsModel.__init__`: when a model
file is configured and the family-appropriate artifacts are all present,
initialize from saved; otherwise fall back to the pretrained model when
one is configured, and to scratch initialization when not. -/
def insults_model_init (isfile : String → Bool) (model_name : String)
    (model_file : Option String) (pretrained_model : Option String) :
    Except String AdapterState :=
  let modelType := modelTypeOf model_name
  let fallback : Except String AdapterState :=
    match pretrained_model with
    | some p => initFromSaved isfile modelType p
    | none => .ok ⟨modelType, false, initFromScratchModel model_name⟩
  match model_file with
  | some f =>
    if (isfile (f ++ ".h5") && modelType == some "nn")
        || (ngramsFilesPresent isfile f && modelType == some "ngrams") then
      initFromSaved isfile modelType f
    else fallback
  | none => fallback

/-! ## Claims -/

/-- C1: when every ensemble adapter contributes a score for a position, the
combined score equals Σ(weightᵢ·scoreᵢ)/Σ(weightᵢ) over the configured
coefficients; the textual label follows the strictly-greater-than-0.5
rule; and in the literal two-adapter case with scores [0.8, 0.4] and
weights [1.0, 3.0] the combined score is exactly 1/2 and the ensemble's
reply carries the negative label `'Non-insult'`. -/
theorem c1_ensemble_weighted_average (model_coefs predictions : List ℚ)
    (hlen : predictions.length = model_coefs.length) :
    weighted_sum model_coefs predictions = specWeightedAvg model_coefs predictions ∧
    (∀ p : ℚ, predictions2text [p] = ["Insult"] ↔ 1/2 < p) ∧
    weighted_sum [1, 3] [4/5, 2/5] = 1/2 ∧
    ensemble_batch_act false [fun _ => [4/5], fun _ => [2/5]] [1, 3] "InsultsAgent"
        [⟨some "x", none, true⟩]
      = .ok [⟨"InsultsAgent", some "Non-insult", some (1/2)⟩] := by
  have hhalf : weighted_sum [1, 3] [4/5, 2/5] = 1/2 := by
    simp [weighted_sum, List.range_succ]
    norm_num
  refine ⟨weighted_sum_eq_specWeightedAvg _ _ hlen, ?_, hhalf, ?_⟩
  · intro p
    by_cases hp : (1 : ℚ)/2 < p
    · simp [predictions2text, hp]
    · simp [predictions2text, hp]
  · simp [ensemble_batch_act, runModels, ensembleStep, validInds, batchify, build_ex,
      combineAll, combine, scatterPred, predictions2text, List.range_succ, hhalf,
      Bind.bind, Except.bind]
    norm_num [hhalf]

theorem c1_witness :
    weighted_sum [1, 3] [4/5, 2/5] = specWeightedAvg [1, 3] [4/5, 2/5] :=
  (c1_ensemble_weighted_average [1, 3] [4/5, 2/5] rfl).1

/-- C2 counterexample: `weighted_sum` divides by the sum of all configured
coefficients even when only one adapter contributed, and it pairs the
contributed scores with the coefficient list positionally.  With
coefficients [1, 3] and a single contributing adapter scoring 0.8 (the
second adapter contributes nothing for the position), the ensemble reply's
combined score is 1·0.8/(1+3) = 1/5, not the raw score 4/5. -/
theorem c2_single_contributor_counterexample :
    ensemble_batch_act false [fun _ => [4/5], fun _ => []] [1, 3] "InsultsAgent"
        [⟨some "x", none, true⟩]
      = .ok [⟨"InsultsAgent", some "Non-insult", some (1/5)⟩] ∧
    (1 : ℚ)/5 ≠ 4/5 := by
  constructor
  · have hfifth : weighted_sum [1, 3] [4/5] = 1/5 := by
      simp [weighted_sum, List.range_succ]
      norm_num
    simp [ensemble_batch_act, runModels, ensembleStep, validInds, batchify, build_ex,
      combineAll, combine, scatterPred, predictions2text, List.range_succ, hfifth,
      Bind.bind, Except.bind]
    norm_num [hfifth]
  · norm_num

/-- C2 amended: when exactly one adapter contributes a score `s` for a
position, the combined score is `(first configured coefficient) · s / (sum
of all configured coefficients)` — the coefficient is taken positionally
(index 0 of the coefficient list, regardless of which adapter contributed)
and the divisor is the full configured weight sum, so the combined score
equals the raw score only when the first coefficient equals the total sum
(e.g. a single-adapter ensemble). -/
theorem c2_single_contributor_scaled (model_coefs : List ℚ) (s : ℚ)
    (hne : model_coefs ≠ []) :
    weighted_sum model_coefs [s] = model_coefs.headD 0 * s / model_coefs.sum := by
  cases model_coefs with
  | nil => exact absurd rfl hne
  | cons c cs => simp [weighted_sum, List.range_succ]

theorem c2_witness :
    weighted_sum [1, 3] [(4 : ℚ)/5] = [(1 : ℚ), 3].headD 0 * (4/5) / [(1 : ℚ), 3].sum :=
  c2_single_contributor_scaled [1, 3] (4/5) (List.cons_ne_nil 1 [3])

/-! ### Helper lemmas for C4 -/

theorem string_foldl_join_append (p : String) :
    ∀ (ss : List String) (a : String),
      p ++ ss.foldl (fun acc s => acc ++ "\n" ++ s) a
        = ss.foldl (fun acc s => acc ++ "\n" ++ s) (p ++ a)
  | [], a => rfl
  | s :: ss, a => by
    simp only [List.foldl_cons]
    rw [string_foldl_join_append p ss (a ++ "\n" ++ s)]
    congr 1
    simp [String.append_assoc]

theorem newlineJoin_cons (t : String) (ts : List String) :
    newlineJoin (t :: ts) = ts.foldl (fun acc s => acc ++ "\n" ++ s) t := by
  induction ts generalizing t with
  | nil => rfl
  | cons s ss ih =>
    show t ++ "\n" ++ newlineJoin (s :: ss) = _
    rw [ih s, List.foldl_cons, string_foldl_join_append]

/-- Evaluating `observe` when the previous example ended its episode: the
observation is stored unchanged. -/
theorem observe_done (st : ShellState) (o : Obs) (hdone : st.episode_done = true) :
    observe st o = .ok (⟨o.episodeDone, some o⟩, o) := by
  simp [observe, hdone, Bind.bind, Except.bind]

/-- Evaluating `observe` mid-episode: the previous dialogue is prepended,
newline-joined. -/
theorem observe_not_done (ob o : Obs) (T t : String)
    (hT : ob.text = some T) (ht : o.text = some t) :
    observe ⟨false, some ob⟩ o =
      .ok (⟨o.episodeDone, some { o with text := some (T ++ "\n" ++ t) }⟩,
        { o with text := some (T ++ "\n" ++ t) }) := by
  simp [observe, hT, ht, Bind.bind, Except.bind]

theorem observeAll_mid_episode :
    ∀ (l : List Obs) (ob : Obs) (T : String),
      ob.text = some T →
      (∀ o ∈ l.dropLast, o.episodeDone = false) →
      (∀ o ∈ l, o.text.isSome) →
      ∃ st', observeAll ⟨false, some ob⟩ l = .ok st' ∧
        ∃ ob', st'.observation = some ob' ∧
          ob'.text = some (l.foldl (fun acc o => acc ++ "\n" ++ o.text.getD "") T)
  | [], ob, T, hT, _, _ => ⟨⟨false, some ob⟩, rfl, ob, rfl, by simpa using hT⟩
  | o :: rest, ob, T, hT, hflags, htext => by
    obtain ⟨t, ht⟩ := Option.isSome_iff_exists.mp (htext o (List.mem_cons_self o rest))
    have hstep := observe_not_done ob o T t hT ht
    cases rest with
    | nil =>
      refine ⟨⟨o.episodeDone, some { o with text := some (T ++ "\n" ++ t) }⟩, ?_,
        { o with text := some (T ++ "\n" ++ t) }, rfl, ?_⟩
      · simp [observeAll, hstep, Bind.bind, Except.bind]
      · simp [ht]
    | cons r rs =>
      have hodone : o.episodeDone = false := by
        apply hflags
        simp [List.dropLast]
      obtain ⟨st', hrun, ob', hob', htext'⟩ :=
        observeAll_mid_episode (r :: rs) { o with text := some (T ++ "\n" ++ t) }
          (T ++ "\n" ++ t) rfl
          (fun x hx => hflags x (by simp [List.dropLast] at hx ⊢; exact Or.inr hx))
          (fun x hx => htext x (List.mem_cons_of_mem o hx))
      refine ⟨st', ?_, ob', hob', ?_⟩
      · simp only [observeAll, hstep, Bind.bind, Except.bind]
        rw [hodone]
        exact hrun
      · rw [htext']
        simp [ht]

/-- C4: for every sequence of observations forming a single episode (every
observation but possibly the last has `episode_done = False`, every
observation carries a text), after folding `observe` over the sequence
from a fresh agent, the stored observation's text — the text the feature
pipeline sees for the final turn — is the newline-join of all the turns'
original texts in order. -/
theorem c4_episode_concatenation (l : List Obs)
    (hne : l ≠ [])
    (hflags : ∀ o ∈ l.dropLast, o.episodeDone = false)
    (htext : ∀ o ∈ l, o.text.isSome) :
    ∃ st', observeAll initialShell l = .ok st' ∧
      ∃ ob', st'.observation = some ob' ∧
        ob'.text = some (newlineJoin (l.map (fun o => o.text.getD ""))) := by
  cases l with
  | nil => exact absurd rfl hne
  | cons o rest =>
    obtain ⟨t, ht⟩ := Option.isSome_iff_exists.mp (htext o (List.mem_cons_self o rest))
    have hstep := observe_done initialShell o rfl
    cases rest with
    | nil =>
      refine ⟨⟨o.episodeDone, some o⟩, ?_, o, rfl, ?_⟩
      · simp [observeAll, hstep, Bind.bind, Except.bind]
      · simp [newlineJoin, ht]
    | cons r rs =>
      have hodone : o.episodeDone = false := by
        apply hflags
        simp [List.dropLast]
      obtain ⟨st', hrun, ob', hob', htext'⟩ :=
        observeAll_mid_episode (r :: rs) o t ht
          (fun x hx => hflags x (by simp [List.dropLast] at hx ⊢; exact Or.inr hx))
          (fun x hx => htext x (List.mem_cons_of_mem o hx))
      refine ⟨st', ?_, ob', hob', ?_⟩
      · simp only [observeAll, hstep, Bind.bind, Except.bind]
        rw [hodone]
        exact hrun
      · rw [htext']
        rw [List.map_cons, newlineJoin_cons, List.foldl_map]
        simp [ht]

/-- C9 counterexample: a shared-mode `OneEpochAgent.batch_act` call DOES
modify agent state before its error is raised — `self.observations_ +=
observations` runs before the `is_shared` check, so the stored training
observations grow from `[]` to the passed batch even though the call
errors. -/
theorem c9_one_epoch_state_mutation_counterexample :
    (one_epoch_batch_act true [] (fun _ => []) "InsultsAgent"
        [⟨some "x", none, true⟩]).1 = [⟨some "x", none, true⟩] ∧
    (one_epoch_batch_act true [] (fun _ => []) "InsultsAgent"
        [⟨some "x", none, true⟩]).2
      = .error "RuntimeError: Parallel act is not supported." ∧
    ([] : List Obs) ≠ [⟨some "x", none, true⟩] :=
  ⟨rfl, rfl, by simp⟩

/-- C9 amended: every shared-mode `act`/`batch_act` invocation raises the
explicit `RuntimeError` and produces no replies; for
`EnsembleInsultsAgent` and `InsultsAgent` the check runs first (nothing
else is consulted), but `OneEpochAgent.batch_act` first appends the batch
to its stored training observations and only then raises. -/
theorem c9_shared_mode_error :
    (∀ (models : List (BatchifyOut → List ℚ)) (model_coefs : List ℚ)
        (agentId : String) (observations : List Obs),
      ensemble_batch_act true models model_coefs agentId observations
        = .error "RuntimeError: Parallel act is not supported.") ∧
    (∀ (models : List (BatchifyOut → List ℚ)) (model_coefs : List ℚ)
        (agentId : String) (observation : Obs),
      ensemble_act true models model_coefs agentId observation
        = .error "RuntimeError: Parallel act is not supported.") ∧
    (∀ (predictF updateF : BatchifyOut → List ℚ) (agentId : String)
        (observations : List Obs),
      insults_batch_act true predictF updateF agentId observations
        = .error "RuntimeError: Parallel act is not supported.") ∧
    (∀ (stored : List Obs) (predictF : BatchifyOut → List ℚ) (agentId : String)
        (observations : List Obs),
      (one_epoch_batch_act true stored predictF agentId observations).2
          = .error "RuntimeError: Parallel act is not supported." ∧
        (one_epoch_batch_act true stored predictF agentId observations).1
          = stored ++ observations) :=
  ⟨fun _ _ _ _ => rfl, fun _ _ _ _ => rfl, fun _ _ _ _ => rfl,
   fun _ _ _ _ => ⟨rfl, rfl⟩⟩

/-- C10: whether `InsultsAgent.batch_act` performs a training step
(`update`) or pure prediction (`predict`) is determined solely by whether
the first observation of the (non-empty) batch carries a `labels` key:
when it does not, the result does not depend on the update function at
all, and when it does, the result does not depend on the predict function
at all — in particular labels on later observations never influence the
choice. -/
theorem c10_mode_from_first_observation
    (predictF predictF' updateF updateF' : BatchifyOut → List ℚ)
    (agentId : String) (o : Obs) (rest : List Obs) :
    (o.labels = none →
      insults_batch_act false predictF updateF agentId (o :: rest)
        = insults_batch_act false predictF updateF' agentId (o :: rest)) ∧
    (o.labels.isSome = true →
      insults_batch_act false predictF updateF agentId (o :: rest)
        = insults_batch_act false predictF' updateF agentId (o :: rest)) := by
  constructor
  · intro h
    simp [insults_batch_act, h]
  · intro h
    simp [insults_batch_act, h]

theorem c10_witness :
    insults_batch_act false (fun _ => [1]) (fun _ => [0]) "InsultsAgent"
        [⟨some "x", none, true⟩, ⟨some "y", some ["Insult"], true⟩]
      = insults_batch_act false (fun _ => [1]) (fun _ => [1/3]) "InsultsAgent"
        [⟨some "x", none, true⟩, ⟨some "y", some ["Insult"], true⟩] :=
  (c10_mode_from_first_observation (fun _ => [1]) (fun _ => [1])
    (fun _ => [0]) (fun _ => [1/3]) "InsultsAgent" ⟨some "x", none, true⟩
    [⟨some "y", some ["Insult"], true⟩]).1 rfl

/-! ### Helper lemmas for C5 -/

theorem ebind_ok {α β : Type} (a : α) (f : α → Except String β) :
    (Except.ok a >>= f) = f a := rfl

theorem ebind_error {α β : Type} (e : String) (f : α → Except String β) :
    ((Except.error e : Except String α) >>= f) = Except.error e := rfl

theorem scatterPred_length (table : List (List ℚ)) (inds : List Nat)
    (vals : List ℚ) : (scatterPred table inds vals).length = table.length := by
  induction vals generalizing table inds with
  | nil => cases inds <;> simp [scatterPred]
  | cons v vs ih =>
    cases inds with
    | nil => simp [scatterPred]
    | cons i is => simp [scatterPred, ih, List.length_set]

theorem ensembleStep_ok_length (observations : List Obs) (table : List (List ℚ))
    (m : BatchifyOut → List ℚ) (table' : List (List ℚ))
    (h : ensembleStep observations table m = .ok table') :
    table'.length = table.length := by
  simp only [ensembleStep] at h
  cases hb : batchify ((observations.map build_ex).filterMap id) with
  | error e =>
    rw [hb, ebind_error] at h
    exact absurd h (by simp)
  | ok out =>
    rw [hb, ebind_ok] at h
    split at h
    · injection h with h
      rw [← h, scatterPred_length]
    · exact absurd h (by simp)

theorem runModels_ok_length (observations : List Obs) :
    ∀ (models : List (BatchifyOut → List ℚ)) (table table' : List (List ℚ)),
      runModels observations models table = .ok table' → table'.length = table.length
  | [], table, table', h => by
    simp only [runModels] at h
    injection h with h
    rw [h]
  | m :: ms, table, table', h => by
    simp only [runModels] at h
    cases hs : ensembleStep observations table m with
    | error e =>
      rw [hs, ebind_error] at h
      exact absurd h (by simp)
    | ok t1 =>
      rw [hs, ebind_ok] at h
      rw [runModels_ok_length observations ms t1 table' h,
        ensembleStep_ok_length observations table m t1 hs]

theorem combine_ok_id (model_coefs : List ℚ) (agentId : String) (preds : List ℚ)
    (r : Reply) (h : combine model_coefs agentId preds = .ok r) : r.id = agentId := by
  unfold combine at h
  split_ifs at h with h1 h2 h3
  all_goals first
    | exact (Except.noConfusion h)
    | (simp only [Except.ok.injEq] at h
       rw [← h])

theorem combineAll_ok (model_coefs : List ℚ) (agentId : String) :
    ∀ (table : List (List ℚ)) (replies : List Reply),
      combineAll model_coefs agentId table = .ok replies →
      replies.length = table.length ∧ ∀ r ∈ replies, r.id = agentId
  | [], replies, h => by
    simp only [combineAll] at h
    injection h with h
    simp [← h]
  | preds :: rest, replies, h => by
    simp only [combineAll, Bind.bind, Except.bind] at h
    cases hc : combine model_coefs agentId preds with
    | error e => rw [hc] at h; exact absurd h (by simp)
    | ok r =>
      rw [hc] at h
      cases hrest : combineAll model_coefs agentId rest with
      | error e => rw [hrest] at h; exact absurd h (by simp)
      | ok rs =>
        rw [hrest] at h
        injection h with h
        obtain ⟨hlen, hids⟩ := combineAll_ok model_coefs agentId rest rs hrest
        constructor
        · rw [← h]
          simp [hlen]
        · intro x hx
          rw [← h] at hx
          rcases List.mem_cons.mp hx with rfl | hx
          · exact combine_ok_id model_coefs agentId preds x hc
          · exact hids x hx

theorem scatterReply_length (table : List Reply) (inds : List Nat)
    (vals : List (String × ℚ)) :
    (scatterReply table inds vals).length = table.length := by
  induction vals generalizing table inds with
  | nil => cases inds <;> simp [scatterReply]
  | cons v vs ih =>
    cases inds with
    | nil => simp [scatterReply]
    | cons i is =>
      cases v with
      | mk t q => simp [scatterReply, ih, List.length_set]

theorem scatterReply_id (agentId : String) (table : List Reply)
    (inds : List Nat) (vals : List (String × ℚ))
    (hinv : ∀ r ∈ table, r.id = agentId) :
    ∀ r ∈ scatterReply table inds vals, r.id = agentId := by
  induction vals generalizing table inds with
  | nil => cases inds <;> simpa [scatterReply] using hinv
  | cons v vs ih =>
    cases inds with
    | nil => simpa [scatterReply] using hinv
    | cons i is =>
      cases v with
      | mk t q =>
        simp only [scatterReply]
        apply ih
        intro r hr
        by_cases hi : i < table.length
        · rcases List.mem_or_eq_of_mem_set hr with hr | rfl
          · exact hinv r hr
          · show (table.getD i ⟨"", none, none⟩).id = agentId
            rw [List.getD_eq_getElem table ⟨"", none, none⟩ hi]
            exact hinv (table[i]) (List.getElem_mem hi)
        · rw [List.set_eq_of_length_le (Nat.le_of_not_lt hi)] at hr
          exact hinv r hr

theorem scatter_result_ok (agentId : String) (obs : List Obs) (preds : List ℚ)
    (replies : List Reply)
    (h : (if preds.length ≤ (validInds (obs.map build_ex)).length then
            Except.ok (scatterReply (obs.map fun _ => (⟨agentId, none, none⟩ : Reply))
              (validInds (obs.map build_ex)) ((predictions2text preds).zip preds))
          else Except.error "IndexError") = .ok replies) :
    replies.length = obs.length ∧ ∀ r ∈ replies, r.id = agentId := by
  split at h
  · injection h with h
    constructor
    · rw [← h, scatterReply_length, List.length_map]
    · intro r hr
      rw [← h] at hr
      refine scatterReply_id agentId _ _ _ ?_ r hr
      intro x hx
      rcases List.mem_map.mp hx with ⟨_, _, rfl⟩
      rfl
  · exact absurd h (by simp)

/-- C5 counterexample: on the empty observation batch, `batch_act` does not
return a reply list at all — `InsultsAgent.batch_act` raises `IndexError`
at `observations[0]`, and `EnsembleInsultsAgent.batch_act` (with at least
one model) raises `IndexError` at `batch[0]` inside `_batchify`. -/
theorem c5_empty_batch_counterexample :
    insults_batch_act false (fun _ => []) (fun _ => []) "InsultsAgent" []
        = .error "IndexError" ∧
    ensemble_batch_act false [fun _ => []] [1] "InsultsAgent" []
        = .error "IndexError" :=
  ⟨rfl, rfl⟩

theorem batch_act_ok_length_id :
    (∀ (models : List (BatchifyOut → List ℚ)) (model_coefs : List ℚ)
        (agentId : String) (observations : List Obs) (replies : List Reply),
      ensemble_batch_act false models model_coefs agentId observations = .ok replies →
      replies.length = observations.length ∧ ∀ r ∈ replies, r.id = agentId) ∧
    (∀ (predictF updateF : BatchifyOut → List ℚ) (agentId : String)
        (observations : List Obs) (replies : List Reply),
      insults_batch_act false predictF updateF agentId observations = .ok replies →
      replies.length = observations.length ∧ ∀ r ∈ replies, r.id = agentId) := by
  constructor
  · intro models model_coefs agentId observations replies h
    simp only [ensemble_batch_act, Bool.false_eq_true, if_false] at h
    cases hrm : runModels observations models (observations.map fun _ => []) with
    | error e =>
      rw [hrm, ebind_error] at h
      exact absurd h (by simp)
    | ok table =>
      rw [hrm, ebind_ok] at h
      obtain ⟨hlen, hids⟩ := combineAll_ok model_coefs agentId table replies h
      refine ⟨?_, hids⟩
      rw [hlen, runModels_ok_length observations models _ table hrm, List.length_map]
  · intro predictF updateF agentId observations replies h
    cases observations with
    | nil =>
      simp only [insults_batch_act] at h
      exact absurd h (by simp)
    | cons o rest =>
      simp only [insults_batch_act, Bool.false_eq_true, if_false] at h
      cases hb : batchify (((o :: rest).map build_ex).filterMap id) with
      | error e =>
        rw [hb, ebind_error] at h
        exact absurd h (by simp)
      | ok out =>
        rw [hb, ebind_ok] at h
        exact scatter_result_ok agentId (o :: rest) _ replies h

/-- C5 amended: whenever `batch_act` returns a reply list (it raises
instead on an empty batch, or when every observation lacks text), the list
has exactly one reply per input observation and every reply carries the
agent identifier — for both `EnsembleInsultsAgent.batch_act` and
`InsultsAgent.batch_act`. -/
theorem c5_length_and_id :
    (∀ (models : List (BatchifyOut → List ℚ)) (model_coefs : List ℚ)
        (agentId : String) (observations : List Obs) (replies : List Reply),
      ensemble_batch_act false models model_coefs agentId observations = .ok replies →
      replies.length = observations.length ∧ ∀ r ∈ replies, r.id = agentId) ∧
    (∀ (predictF updateF : BatchifyOut → List ℚ) (agentId : String)
        (observations : List Obs) (replies : List Reply),
      insults_batch_act false predictF updateF agentId observations = .ok replies →
      replies.length = observations.length ∧ ∀ r ∈ replies, r.id = agentId) :=
  batch_act_ok_length_id

theorem c5_witness :
    ([(⟨"InsultsAgent", some "Insult", some 1⟩ : Reply)].length = 1 ∧
      ∀ r ∈ [(⟨"InsultsAgent", some "Insult", some 1⟩ : Reply)],
        r.id = "InsultsAgent") :=
  c5_length_and_id.2 (fun _ => [1]) (fun _ => []) "InsultsAgent"
    [⟨some "x", none, true⟩] [⟨"InsultsAgent", some "Insult", some 1⟩] (by
      simp [insults_batch_act, batchify, build_ex, validInds, scatterReply,
        predictions2text, List.range_succ, Bind.bind, Except.bind]
      norm_num)

/-! ### Helper lemmas for C6 -/

theorem scatterReply_vals_nil (table : List Reply) (inds : List Nat) :
    scatterReply table inds [] = table := by
  cases inds <;> rfl

theorem mem_validInds_lt {e : List (Option Example)} {i : Nat}
    (hi : i ∈ validInds e) : i < e.length := by
  unfold validInds at hi
  exact List.mem_range.mp (List.mem_filter.mp hi).1

theorem validInds_append (e1 e2 : List (Option Example)) :
    validInds (e1 ++ e2)
      = validInds e1 ++ (validInds e2).map (fun i => e1.length + i) := by
  unfold validInds
  rw [List.length_append, List.range_add, List.filter_append, List.filter_map]
  congr 1
  · apply List.filter_congr
    intro i hi
    rw [List.getD_append _ _ _ _ (List.mem_range.mp hi)]
  · congr 1
    apply List.filter_congr
    intro i _
    simp only [Function.comp_apply]
    rw [List.getD_append_right _ _ _ _ (Nat.le_add_right _ _), Nat.add_sub_cancel_left]

theorem validInds_cons_none (e : List (Option Example)) :
    validInds ((none : Option Example) :: e)
      = (validInds e).map (fun i => 1 + i) := by
  have h : ((none : Option Example) :: e) = [none] ++ e := rfl
  rw [h, validInds_append]
  rfl

/-- Scattering at positions shifted past a prefix leaves the prefix
untouched and acts on the suffix. -/
theorem scatterReply_shift (n : Nat) (t1 t2 : List Reply) (ks : List Nat)
    (vals : List (String × ℚ)) (hn : t1.length = n) :
    scatterReply (t1 ++ t2) (ks.map (fun k => n + k)) vals
      = t1 ++ scatterReply t2 ks vals := by
  subst hn
  induction vals generalizing ks t2 with
  | nil => rw [scatterReply_vals_nil, scatterReply_vals_nil]
  | cons v vs ih =>
    cases ks with
    | nil => simp [scatterReply]
    | cons k ks' =>
      cases v with
      | mk tx sc =>
        simp only [List.map_cons, scatterReply]
        rw [List.getD_append_right _ _ _ _ (Nat.le_add_right _ _),
          Nat.add_sub_cancel_left,
          List.set_append_right _ _ (Nat.le_add_right _ _),
          Nat.add_sub_cancel_left]
        exact ih _ _

/-- Scattering splits along an append of the table when the first index
block stays inside the prefix and the second is shifted past it. -/
theorem scatterReply_split (n : Nat) :
    ∀ (i1 : List Nat) (t1 t2 : List Reply) (ks : List Nat)
      (vals : List (String × ℚ)),
      t1.length = n → (∀ i ∈ i1, i < n) →
      scatterReply (t1 ++ t2) (i1 ++ ks.map (fun k => n + k)) vals
        = scatterReply t1 i1 (vals.take i1.length)
          ++ scatterReply t2 ks (vals.drop i1.length)
  | [], t1, t2, ks, vals, hn, _ => by
    rw [List.nil_append, scatterReply_shift n t1 t2 ks vals hn]
    rfl
  | i :: i1', t1, t2, ks, vals, hn, h1 => by
    cases vals with
    | nil =>
      simp only [List.take_nil, List.drop_nil, scatterReply_vals_nil]
    | cons v vs =>
      cases v with
      | mk tx sc =>
        have hi : i < t1.length := hn ▸ h1 i (List.mem_cons_self i i1')
        simp only [List.cons_append, scatterReply, List.length_cons,
          List.take_succ_cons, List.drop_succ_cons]
        rw [List.getD_append _ _ _ _ hi, List.set_append_left i _ hi]
        exact scatterReply_split n i1' (t1.set i _) t2 ks vs
          (by rw [List.length_set, hn]) (fun j hj => h1 j (List.mem_cons_of_mem i hj))

/-- The common tail of `InsultsAgent.batch_act` on a non-empty batch:
whether `update` or `predict` ran is `labels0` (the `'labels' in
observations[0]` test). -/
def batchStep (predictF updateF : BatchifyOut → List ℚ) (agentId : String)
    (labels0 : Bool) (observations : List Obs) : Except String (List Reply) :=
  batchify ((observations.map build_ex).filterMap id) >>= fun out =>
    let predictions := if labels0 then updateF out else predictF out
    let predictions_text := predictions2text predictions
    if predictions.length ≤ (validInds (observations.map build_ex)).length then
      .ok (scatterReply (observations.map fun _ => ⟨agentId, none, none⟩)
        (validInds (observations.map build_ex)) (predictions_text.zip predictions))
    else
      .error "IndexError"

theorem insults_batch_act_eq_batchStep (predictF updateF : BatchifyOut → List ℚ)
    (agentId : String) (o : Obs) (rest : List Obs) :
    insults_batch_act false predictF updateF agentId (o :: rest)
      = batchStep predictF updateF agentId o.labels.isSome (o :: rest) := by
  simp only [insults_batch_act, batchStep, Bool.false_eq_true, if_false]

/-- Removing an observation without text from the batch does not change the
scatter result except for dropping that position's untouched reply. -/
theorem scatterStep_skip (agentId : String) (p : List ℚ) (pre post : List Obs)
    (x : Obs) (hbx : build_ex x = none) (replies : List Reply)
    (hok : (if p.length ≤ (validInds ((pre ++ x :: post).map build_ex)).length then
          Except.ok (scatterReply
            ((pre ++ x :: post).map fun _ => (⟨agentId, none, none⟩ : Reply))
            (validInds ((pre ++ x :: post).map build_ex))
            ((predictions2text p).zip p))
        else Except.error "IndexError") = .ok replies) :
    ∃ replies',
      (if p.length ≤ (validInds ((pre ++ post).map build_ex)).length then
          Except.ok (scatterReply
            ((pre ++ post).map fun _ => (⟨agentId, none, none⟩ : Reply))
            (validInds ((pre ++ post).map build_ex))
            ((predictions2text p).zip p))
        else Except.error "IndexError") = .ok replies' ∧
      replies = replies'.take pre.length
        ++ (⟨agentId, none, none⟩ : Reply) :: replies'.drop pre.length := by
  have hvB : validInds ((pre ++ x :: post).map build_ex)
      = validInds (pre.map build_ex)
        ++ ((validInds (post.map build_ex)).map (fun i => 1 + i)).map
            (fun i => pre.length + i) := by
    rw [List.map_append, List.map_cons, hbx, validInds_append, validInds_cons_none]
    simp only [List.length_map]
  have hvS : validInds ((pre ++ post).map build_ex)
      = validInds (pre.map build_ex)
        ++ (validInds (post.map build_ex)).map (fun i => pre.length + i) := by
    rw [List.map_append, validInds_append]
    simp only [List.length_map]
  have hvlen : (validInds ((pre ++ x :: post).map build_ex)).length
      = (validInds ((pre ++ post).map build_ex)).length := by
    rw [hvB, hvS]
    simp
  split at hok
  · next hguard =>
    injection hok with hok
    rw [if_pos (hvlen ▸ hguard)]
    refine ⟨_, rfl, ?_⟩
    have htabB : (pre ++ x :: post).map (fun _ => (⟨agentId, none, none⟩ : Reply))
        = (pre.map fun _ => (⟨agentId, none, none⟩ : Reply))
          ++ (⟨agentId, none, none⟩ : Reply)
            :: (post.map fun _ => (⟨agentId, none, none⟩ : Reply)) := by
      simp
    have htabS : (pre ++ post).map (fun _ => (⟨agentId, none, none⟩ : Reply))
        = (pre.map fun _ => (⟨agentId, none, none⟩ : Reply))
          ++ (post.map fun _ => (⟨agentId, none, none⟩ : Reply)) := by
      simp
    have hn1 : (pre.map fun _ => (⟨agentId, none, none⟩ : Reply)).length = pre.length := by
      simp
    have hilt : ∀ i ∈ validInds (pre.map build_ex), i < pre.length := by
      intro i hi
      have := mem_validInds_lt hi
      simpa using this
    have hsplitB :
        scatterReply ((pre ++ x :: post).map fun _ => (⟨agentId, none, none⟩ : Reply))
          (validInds ((pre ++ x :: post).map build_ex)) ((predictions2text p).zip p)
        = scatterReply (pre.map fun _ => (⟨agentId, none, none⟩ : Reply))
            (validInds (pre.map build_ex))
            (((predictions2text p).zip p).take (validInds (pre.map build_ex)).length)
          ++ (⟨agentId, none, none⟩ : Reply)
            :: scatterReply (post.map fun _ => (⟨agentId, none, none⟩ : Reply))
              (validInds (post.map build_ex))
              (((predictions2text p).zip p).drop (validInds (pre.map build_ex)).length) := by
      rw [htabB, hvB,
        scatterReply_split pre.length (validInds (pre.map build_ex)) _ _ _ _ hn1 hilt]
      congr 1
      rw [show ((⟨agentId, none, none⟩ : Reply)
            :: (post.map fun _ => (⟨agentId, none, none⟩ : Reply)))
          = [(⟨agentId, none, none⟩ : Reply)]
            ++ (post.map fun _ => (⟨agentId, none, none⟩ : Reply)) from rfl,
        scatterReply_shift 1 [(⟨agentId, none, none⟩ : Reply)] _ _ _ rfl,
        List.singleton_append]
    have hsplitS :
        scatterReply ((pre ++ post).map fun _ => (⟨agentId, none, none⟩ : Reply))
          (validInds ((pre ++ post).map build_ex)) ((predictions2text p).zip p)
        = scatterReply (pre.map fun _ => (⟨agentId, none, none⟩ : Reply))
            (validInds (pre.map build_ex))
            (((predictions2text p).zip p).take (validInds (pre.map build_ex)).length)
          ++ scatterReply (post.map fun _ => (⟨agentId, none, none⟩ : Reply))
              (validInds (post.map build_ex))
              (((predictions2text p).zip p).drop (validInds (pre.map build_ex)).length) := by
      rw [htabS, hvS,
        scatterReply_split pre.length (validInds (pre.map build_ex)) _ _ _ _ hn1 hilt]
    rw [← hok, hsplitB, hsplitS]
    have hA : pre.length
        = (scatterReply (pre.map fun _ => (⟨agentId, none, none⟩ : Reply))
            (validInds (pre.map build_ex))
            (((predictions2text p).zip p).take (validInds (pre.map build_ex)).length)).length := by
      rw [scatterReply_length, List.length_map]
    rw [hA, List.take_left, List.drop_left]
  · exact absurd hok (by simp)

theorem batchStep_skip (predictF updateF : BatchifyOut → List ℚ) (agentId : String)
    (b : Bool) (pre post : List Obs) (x : Obs) (hx : x.text = none)
    (replies : List Reply)
    (hok : batchStep predictF updateF agentId b (pre ++ x :: post) = .ok replies) :
    ∃ replies', batchStep predictF updateF agentId b (pre ++ post) = .ok replies' ∧
      replies = replies'.take pre.length
        ++ (⟨agentId, none, none⟩ : Reply) :: replies'.drop pre.length := by
  have hbx : build_ex x = none := by simp [build_ex, hx]
  have hexs : ((pre ++ x :: post).map build_ex).filterMap id
      = ((pre ++ post).map build_ex).filterMap id := by
    simp [List.map_append, List.filterMap_append, hbx]
  simp only [batchStep] at hok ⊢
  rw [hexs] at hok
  cases hb : batchify (((pre ++ post).map build_ex).filterMap id) with
  | error e =>
    rw [hb, ebind_error] at hok
    exact absurd hok (by simp)
  | ok out =>
    rw [hb, ebind_ok] at hok
    rw [ebind_ok]
    exact scatterStep_skip agentId _ pre post x hbx replies hok

/-- C6 counterexample: a batch consisting of a single observation without a
text field is NOT silently handled — the example batch becomes empty and
`_batchify` raises `IndexError` at `batch[0]`, so `batch_act` raises
instead of returning a reply that only carries the id. -/
theorem c6_no_text_counterexample :
    insults_batch_act false (fun _ => []) (fun _ => []) "InsultsAgent"
      [⟨none, none, true⟩] = .error "IndexError" := by
  rfl

/-- C6 amended: for every batch containing an observation that lacks a text
field, as long as `batch_act` returns at all (at least one other
observation must carry text, else `_batchify` raises) and removing the
no-text observation does not flip the train-vs-predict decision made from
the first observation's labels, the no-text observation is silently
excluded: its reply carries only the agent identifier, and the replies at
all other positions are exactly those `batch_act` produces on the batch
with that observation removed. -/
theorem c6_no_text_skipped (predictF updateF : BatchifyOut → List ℚ)
    (agentId : String) (pre post : List Obs) (x : Obs) (hx : x.text = none)
    (hmode : (pre ++ x :: post).head?.map (fun o => o.labels.isSome)
        = (pre ++ post).head?.map (fun o => o.labels.isSome))
    (replies : List Reply)
    (hok : insults_batch_act false predictF updateF agentId (pre ++ x :: post)
        = .ok replies) :
    replies.getD pre.length ⟨"", none, none⟩ = (⟨agentId, none, none⟩ : Reply) ∧
    ∃ replies',
      insults_batch_act false predictF updateF agentId (pre ++ post) = .ok replies' ∧
      replies = replies'.take pre.length
        ++ (⟨agentId, none, none⟩ : Reply) :: replies'.drop pre.length := by
  cases hsp : pre ++ post with
  | nil =>
    obtain ⟨hpre, hpost⟩ := List.append_eq_nil.mp hsp
    subst hpre
    subst hpost
    simp only [List.nil_append] at hok
    have : insults_batch_act false predictF updateF agentId [x]
        = .error "IndexError" := by
      simp [insults_batch_act, build_ex, hx, batchify, ebind_error]
    rw [this] at hok
    exact absurd hok (by simp)
  | cons q qrest =>
    cases hbp : pre ++ x :: post with
    | nil => exact absurd hbp (by simp)
    | cons o orest =>
      rw [hbp, insults_batch_act_eq_batchStep, ← hbp] at hok
      have hb_eq : o.labels.isSome = q.labels.isSome := by
        rw [hbp, hsp] at hmode
        simpa using hmode
      obtain ⟨replies', hres, hdec⟩ :=
        batchStep_skip predictF updateF agentId o.labels.isSome pre post x hx
          replies hok
      have hgoal2 : insults_batch_act false predictF updateF agentId (pre ++ post)
          = .ok replies' := by
        rw [hsp, insults_batch_act_eq_batchStep, ← hb_eq, ← hsp]
        exact hres
      rw [hsp] at hgoal2
      refine ⟨?_, replies', hgoal2, hdec⟩
      have hlen : (replies'.take pre.length).length = pre.length := by
        have h5 := (batch_act_ok_length_id.2 predictF updateF agentId (q :: qrest)
          replies' hgoal2).1
        rw [← hsp] at h5
        rw [List.length_take, h5, List.length_append]
        omega
      rw [hdec, List.getD_append_right _ _ _ _ (by rw [hlen]), hlen,
        Nat.sub_self]
      rfl

theorem c6_witness :
    [(⟨"InsultsAgent", some "Insult", some 1⟩ : Reply),
        ⟨"InsultsAgent", none, none⟩,
        ⟨"InsultsAgent", some "Insult", some 1⟩].getD 1 ⟨"", none, none⟩
      = (⟨"InsultsAgent", none, none⟩ : Reply) ∧
    ∃ replies',
      insults_batch_act false (fun out => out.questions.map (fun _ => 1))
          (fun _ => []) "InsultsAgent"
          [⟨some "a", none, true⟩, ⟨some "b", none, true⟩] = .ok replies' ∧
      [(⟨"InsultsAgent", some "Insult", some 1⟩ : Reply),
        ⟨"InsultsAgent", none, none⟩,
        ⟨"InsultsAgent", some "Insult", some 1⟩]
        = replies'.take 1 ++ (⟨"InsultsAgent", none, none⟩ : Reply) :: replies'.drop 1 :=
  c6_no_text_skipped (fun out => out.questions.map (fun _ => 1)) (fun _ => [])
    "InsultsAgent" [⟨some "a", none, true⟩] [⟨some "b", none, true⟩]
    ⟨none, none, false⟩ rfl rfl
    [⟨"InsultsAgent", some "Insult", some 1⟩, ⟨"InsultsAgent", none, none⟩,
      ⟨"InsultsAgent", some "Insult", some 1⟩]
    (by
      simp [insults_batch_act, batchify, build_ex, validInds, scatterReply,
        predictions2text, List.range_succ, Bind.bind, Except.bind,
        BatchifyOut.questions]
      norm_num)

/-- C7 counterexample: an adapter constructed with a model file path whose
required artifacts are all missing, and no pretrained model configured, is
NOT a fatal error — `__init__` silently initializes the model from
scratch and completes. -/
theorem c7_missing_artifact_counterexample :
    insults_model_init (fun _ => false) "log_reg" (some "m") none
      = .ok ⟨some "ngrams", false, some (.scratch "log_reg")⟩ := by
  rfl

/-- C7 amended: loading from the configured model file happens only when
every required artifact of the family is present (then the classifier is
unpickled from that path); when any artifact is missing, construction
falls back to the pretrained-model path when one is configured (and a
missing file there is fatal at open time), and otherwise silently
initializes from scratch — it never errors and never partially restores. -/
theorem c7_load_fallback :
    (∀ (isfile : String → Bool) (f : String) (pre : Option String),
      ngramsFilesPresent isfile f = true →
      insults_model_init isfile "log_reg" (some f) pre
        = .ok ⟨some "ngrams", true, some (.loaded f)⟩) ∧
    (∀ (isfile : String → Bool) (f : String),
      ngramsFilesPresent isfile f = false →
      insults_model_init isfile "log_reg" (some f) none
        = .ok ⟨some "ngrams", false, some (.scratch "log_reg")⟩) ∧
    (∀ (isfile : String → Bool) (f p : String),
      ngramsFilesPresent isfile f = false →
      isfile (p ++ "_opt.json") = false →
      insults_model_init isfile "log_reg" (some f) (some p) = .error "IOError") := by
  refine ⟨?_, ?_, ?_⟩
  · intro isfile f pre hall
    have h := by simpa [ngramsFilesPresent, ngramsFiles] using hall
    obtain ⟨h1, h2, h3, h4, h5, h6, h7, h8, h9⟩ := h
    simp [insults_model_init, modelTypeOf, initFromSaved, ngramsFilesPresent,
      ngramsFiles, h1, h2, h3, h4, h5, h6, h7, h8, h9]
  · intro isfile f hall
    simp [insults_model_init, modelTypeOf, initFromScratchModel, hall]
  · intro isfile f p hall hopt
    simp [insults_model_init, modelTypeOf, initFromSaved, hall, hopt]

theorem c7_witness :
    insults_model_init (fun _ => true) "log_reg" (some "m") none
        = .ok ⟨some "ngrams", true, some (.loaded "m")⟩ ∧
    insults_model_init (fun _ => false) "log_reg" (some "m") (some "p")
        = .error "IOError" :=
  ⟨c7_load_fallback.1 (fun _ => true) "m" none (by rfl),
   c7_load_fallback.2.2 (fun _ => false) "m" "p" (by rfl) (by rfl)⟩

/-- C8 counterexample: constructing an adapter with the unrecognized
model-family name `'random_forest'` is NOT a fatal error — `__init__`
completes with `model_type` still `None` and no model object ever
assigned. -/
theorem c8_unknown_name_counterexample :
    insults_model_init (fun _ => false) "random_forest" (some "m") none
      = .ok ⟨none, false, none⟩ := by
  rfl

/-- C8 amended: for every model-family name other than `cnn_word`,
`lstm_word`, `log_reg` and `svc` (with no pretrained model configured),
construction silently succeeds: no unrecognized-variant error is raised,
`model_type` remains `None`, and no branch of `_init_from_scratch` ever
assigns `self.model` — the failure is deferred to first use instead of
being fatal at construction. -/
theorem c8_unknown_name_silent (isfile : String → Bool) (model_name : String)
    (model_file : Option String)
    (h1 : model_name ≠ "cnn_word") (h2 : model_name ≠ "lstm_word")
    (h3 : model_name ≠ "log_reg") (h4 : model_name ≠ "svc") :
    insults_model_init isfile model_name model_file none
      = .ok ⟨none, false, none⟩ := by
  cases model_file with
  | none => simp [insults_model_init, modelTypeOf, initFromScratchModel, h1, h2, h3, h4]
  | some f => simp [insults_model_init, modelTypeOf, initFromScratchModel, h1, h2, h3, h4]

theorem c8_witness :
    insults_model_init (fun _ => true) "random_forest" (some "m") none
      = .ok ⟨none, false, none⟩ :=
  c8_unknown_name_silent (fun _ => true) "random_forest" (some "m")
    (by decide) (by decide) (by decide) (by decide)

theorem c4_witness :
    ∃ st', observeAll initialShell
        [⟨some "you", none, false⟩, ⟨some "are", none, false⟩,
         ⟨some "nice", none, true⟩] = .ok st' ∧
      ∃ ob', st'.observation = some ob' ∧
        ob'.text = some (newlineJoin
          ([⟨some "you", none, false⟩, ⟨some "are", none, false⟩,
            (⟨some "nice", none, true⟩ : Obs)].map (fun o => o.text.getD ""))) :=
  c4_episode_concatenation _ (by simp) (by simp [List.dropLast]) (by simp)

end DP

